import Mathlib

/-!
Verification of the fadvise command-line tool (src/fadvise/src/main.rs).

The program is embedded shallowly: the environment type `Env` records the
responses the operating system gives to the four fallible operations the
program performs (existence check, metadata retrieval, file open, advisory
call), and `handle_advice` is the pure translation of the Rust function of
the same name, returning the ordered trace of observable events together
with the `anyhow::Result` outcome.
-/

namespace Fadvise

/-- The six advice keywords, translated from the Rust enum `FadviseType`. -/
inductive FadviseType where
  | Normal
  | Sequential
  | Random
  | NoReuse
  | WillNeed
  | DontNeed
deriving DecidableEq, Fintype

/-- Kernel advisory constants, translated from `nix::fcntl::PosixFadviseAdvice`. -/
inductive PosixFadviseAdvice where
  | POSIX_FADV_NORMAL
  | POSIX_FADV_SEQUENTIAL
  | POSIX_FADV_RANDOM
  | POSIX_FADV_NOREUSE
  | POSIX_FADV_WILLNEED
  | POSIX_FADV_DONTNEED
deriving DecidableEq, Fintype

/-- Translation of `impl Display for FadviseType` in the source. -/
def FadviseType.display : FadviseType → String
  | .Normal => "POSIX_FADV_NORMAL"
  | .Sequential => "POSIX_FADV_SEQUENTIAL"
  | .Random => "POSIX_FADV_RANDOM"
  | .NoReuse => "POSIX_FADV_NOREUSE"
  | .WillNeed => "POSIX_FADV_WILLNEED"
  | .DontNeed => "POSIX_FADV_DONTNEED"

/-- Translation of `impl From FadviseType for PosixFadviseAdvice` in the source. -/
def fadviseTypeInto : FadviseType → PosixFadviseAdvice
  | .Normal => .POSIX_FADV_NORMAL
  | .Sequential => .POSIX_FADV_SEQUENTIAL
  | .Random => .POSIX_FADV_RANDOM
  | .NoReuse => .POSIX_FADV_NOREUSE
  | .WillNeed => .POSIX_FADV_WILLNEED
  | .DontNeed => .POSIX_FADV_DONTNEED

/-- Translation of the Rust struct `AdviseInfo`: the arguments of one advice
subcommand after clap has parsed and validated them.  `offset` and `len` are
`i64` values in the source; clap restricts both to the range `0..`. -/
structure AdviseInfo where
  filename : String
  offset : Int
  len : Option Int
deriving DecidableEq

/-- Largest value of the Rust type `i64`. -/
def i64Max : Int := 2 ^ 63 - 1

/-- Model of the clap value parser `value_parser!(i64).range(0..)` applied to
a supplied integer value: accepted exactly when it fits in `0 ..= i64::MAX`. -/
def clapRange0 (v : Int) : Option Int :=
  if 0 ≤ v ∧ v ≤ i64Max then some v else none

/-- Model of clap building an `AdviseInfo` from the command line for one
advice subcommand: `offset` defaults to `0`, `len` stays optional, and each
supplied value must pass the `range(0..)` parser. -/
def parse_advise_info (filename : String) (offsetArg lenArg : Option Int) :
    Option AdviseInfo :=
  match offsetArg, lenArg with
  | none, none => some ⟨filename, 0, none⟩
  | none, some l => (clapRange0 l).map fun lv => ⟨filename, 0, some lv⟩
  | some o, none => (clapRange0 o).map fun ov => ⟨filename, ov, none⟩
  | some o, some l =>
    match clapRange0 o, clapRange0 l with
    | some ov, some lv => some ⟨filename, ov, some lv⟩
    | _, _ => none

/-- The part of `std::fs::Metadata` the program reads: `is_file()` and
`len()`.  `len` is the `u64` file size. -/
structure Metadata where
  is_file : Bool
  len : Nat
deriving DecidableEq

/-- The responses of the operating system to the four fallible operations of
one invocation, on the given path with the given arguments.  A fixed `Env`
models a fixed filesystem state. -/
structure Env where
  tryExists : Except String Bool
  metadata : Except String Metadata
  openFile : Except String Unit
  fadviseResult : Except String Unit

/-- Observable events of one invocation, in program order. -/
inductive Event where
  | checkExists
  | readMetadata
  | eprint (line : String)
  | openFile
  | fadvise (offset : Int) (len : Int) (advice : PosixFadviseAdvice)
deriving DecidableEq

def Event.isCheckExists : Event → Bool
  | .checkExists => true
  | _ => false

def Event.isReadMetadata : Event → Bool
  | .readMetadata => true
  | _ => false

def Event.isEprint : Event → Bool
  | .eprint _ => true
  | _ => false

def Event.isOpenFile : Event → Bool
  | .openFile => true
  | _ => false

def Event.isFadvise : Event → Bool
  | .fadvise _ _ _ => true
  | _ => false

/-- Semantics of the Rust cast `as i64` applied to a `u64` value: two's
complement wrap-around. -/
def u64_as_i64 (n : Nat) : Int :=
  if n < 2 ^ 63 then (n : Int) else (n : Int) - 2 ^ 64

/-- Translation of the Rust function `handle_advice`, step for step:
existence check, metadata retrieval and file-type check, resolution of the
effective length (`info.len.unwrap_or(metadata.len() as i64)`), the four
`eprintln!` diagnostic lines, the `File::open`, and the `posix_fadvise`
call.  Returns the event trace and the `anyhow::Result`. -/
def handle_advice (advice : FadviseType) (info : AdviseInfo) (env : Env) :
    List Event × Except String Unit :=
  let filename := info.filename
  let offset := info.offset
  match env.tryExists with
  | .error _ => ([.checkExists], .error "Failed to check existence of the file")
  | .ok b =>
    if b then
      match env.metadata with
      | .error _ =>
        ([.checkExists, .readMetadata],
         .error "Failed to retrieve metadata of the file")
      | .ok md =>
        if md.is_file then
          let len := info.len.getD (u64_as_i64 md.len)
          let diag : List Event :=
            [.eprint ("filename: " ++ filename),
             .eprint ("advice: " ++ advice.display),
             .eprint ("offset: " ++ toString offset),
             .eprint ("len: " ++ toString len)]
          match env.openFile with
          | .error _ =>
            ([.checkExists, .readMetadata] ++ diag ++ [.openFile],
             .error "Failed to open the file")
          | .ok _ =>
            match env.fadviseResult with
            | .error e =>
              ([.checkExists, .readMetadata] ++ diag ++
                 [.openFile, .fadvise offset len (fadviseTypeInto advice)],
               .error e)
            | .ok _ =>
              ([.checkExists, .readMetadata] ++ diag ++
                 [.openFile, .fadvise offset len (fadviseTypeInto advice)],
               .ok ())
        else
          ([.checkExists, .readMetadata],
           .error ("\x27" ++ filename ++ "\x27 is not a file"))
    else
      ([.checkExists], .error ("\x27" ++ filename ++ "\x27 does not exist"))

/-- One advice subcommand end to end: clap parses the arguments first; only
when parsing succeeds does `handle_advice` run.  A parse failure makes clap
report a usage error before any filesystem access, so the trace is empty. -/
def run_advice_command (advice : FadviseType) (filename : String)
    (offsetArg lenArg : Option Int) (env : Env) :
    List Event × Except String Unit :=
  match parse_advise_info filename offsetArg lenArg with
  | none => ([], .error "error: invalid value for the argument")
  | some info => handle_advice advice info env

/-! ## Concrete environments used by witnesses and counterexamples -/

/-- Environment of a missing path: the existence check succeeds and reports
absence; the later operations are never reached. -/
def envMissing : Env :=
  ⟨.ok false, .error "unused", .error "unused", .error "unused"⟩

/-- Environment of a directory: it exists, its metadata says it is not a
regular file. -/
def envDir : Env :=
  ⟨.ok true, .ok ⟨false, 4096⟩, .error "unused", .error "unused"⟩

/-- Environment of a readable regular file of size `n` on which every OS
operation succeeds. -/
def envOk (n : Nat) : Env :=
  ⟨.ok true, .ok ⟨true, n⟩, .ok (), .ok ()⟩

/-- Environment of a regular file of size `n` that cannot be opened. -/
def envOpenFail (n : Nat) : Env :=
  ⟨.ok true, .ok ⟨true, n⟩, .error "Permission denied (os error 13)", .ok ()⟩

/-! ## Claims -/

/-- Claim C5: the mapping from the six advice keywords to kernel advisory
constants is total (it is a function on the closed enumeration), one-to-one,
and sends each keyword to the POSIX constant of the same name. -/
theorem advice_mapping_one_to_one :
    (∀ a b : FadviseType, fadviseTypeInto a = fadviseTypeInto b → a = b) ∧
    fadviseTypeInto .Normal = .POSIX_FADV_NORMAL ∧
    fadviseTypeInto .Sequential = .POSIX_FADV_SEQUENTIAL ∧
    fadviseTypeInto .Random = .POSIX_FADV_RANDOM ∧
    fadviseTypeInto .NoReuse = .POSIX_FADV_NOREUSE ∧
    fadviseTypeInto .WillNeed = .POSIX_FADV_WILLNEED ∧
    fadviseTypeInto .DontNeed = .POSIX_FADV_DONTNEED := by
  refine ⟨?_, rfl, rfl, rfl, rfl, rfl, rfl⟩
  decide

/-- Claim C2: on a path that does not exist, every advice subcommand fails
with the message quoting the path followed by "does not exist", and the
trace contains neither a file open nor an advisory call. -/
theorem missing_path_rejected (advice : FadviseType) (info : AdviseInfo)
    (env : Env) (hex : env.tryExists = Except.ok false) :
    (handle_advice advice info env).2 =
      Except.error ("\x27" ++ info.filename ++ "\x27 does not exist") ∧
    Event.openFile ∉ (handle_advice advice info env).1 ∧
    ∀ o l a, Event.fadvise o l a ∉ (handle_advice advice info env).1 := by
  obtain ⟨te, md, op, fa⟩ := env
  simp only at hex
  subst hex
  refine ⟨rfl, ?_, ?_⟩ <;> simp [handle_advice]

/-- Witness for C2 at a concrete missing path. -/
theorem missing_path_rejected_witness :
    (handle_advice FadviseType.Normal ⟨"gone.txt", 0, none⟩ envMissing).2 =
      Except.error "\x27gone.txt\x27 does not exist" ∧
    Event.openFile ∉
      (handle_advice FadviseType.Normal ⟨"gone.txt", 0, none⟩ envMissing).1 := by
  have h := missing_path_rejected FadviseType.Normal ⟨"gone.txt", 0, none⟩
    envMissing rfl
  exact ⟨h.1, h.2.1⟩

/-- Claim C4: on a path that exists but is not a regular file, every advice
subcommand fails with the message quoting the path followed by "is not a
file", and the trace contains no advisory call (and no file open). -/
theorem non_regular_file_rejected (advice : FadviseType) (info : AdviseInfo)
    (env : Env) (md : Metadata) (hex : env.tryExists = Except.ok true)
    (hmd : env.metadata = Except.ok md) (hfile : md.is_file = false) :
    (handle_advice advice info env).2 =
      Except.error ("\x27" ++ info.filename ++ "\x27 is not a file") ∧
    Event.openFile ∉ (handle_advice advice info env).1 ∧
    ∀ o l a, Event.fadvise o l a ∉ (handle_advice advice info env).1 := by
  obtain ⟨te, mdr, op, fa⟩ := env
  simp only at hex hmd
  subst hex
  subst hmd
  refine ⟨?_, ?_, ?_⟩ <;> simp [handle_advice, hfile]

/-- Witness for C4 at a concrete directory path. -/
theorem non_regular_file_rejected_witness :
    (handle_advice FadviseType.Sequential ⟨"somedir", 0, none⟩ envDir).2 =
      Except.error "\x27somedir\x27 is not a file" ∧
    ∀ o l a, Event.fadvise o l a ∉
      (handle_advice FadviseType.Sequential ⟨"somedir", 0, none⟩ envDir).1 := by
  have h := non_regular_file_rejected FadviseType.Sequential
    ⟨"somedir", 0, none⟩ envDir ⟨false, 4096⟩ rfl rfl rfl
  exact ⟨h.1, h.2.2⟩

/-- Claim C3: if the supplied offset value or the supplied length value is
negative, clap rejects the arguments and the invocation performs no
filesystem access at all: the event trace is empty and the outcome is the
usage error. -/
theorem negative_argument_rejected (advice : FadviseType) (filename : String)
    (offsetArg lenArg : Option Int) (env : Env)
    (h : (∃ o, offsetArg = some o ∧ o < 0) ∨ (∃ l, lenArg = some l ∧ l < 0)) :
    run_advice_command advice filename offsetArg lenArg env =
      ([], Except.error "error: invalid value for the argument") := by
  have key : ∀ v : Int, v < 0 → clapRange0 v = none := by
    intro v hv
    rw [clapRange0, if_neg]
    rintro ⟨h0, _⟩
    omega
  have hnone : parse_advise_info filename offsetArg lenArg = none := by
    rcases h with ⟨o, ho, hneg⟩ | ⟨l, hl, hneg⟩
    · subst ho
      cases lenArg <;> simp [parse_advise_info, key o hneg]
    · subst hl
      cases offsetArg with
      | none => simp [parse_advise_info, key l hneg]
      | some o =>
        simp only [parse_advise_info, key l hneg]
        cases clapRange0 o <;> rfl
  simp [run_advice_command, hnone]

/-- Witness for C3 at a concrete negative offset. -/
theorem negative_argument_rejected_witness :
    run_advice_command FadviseType.Random "data.bin" (some (-1)) none
      (envOk 10000) =
      ([], Except.error "error: invalid value for the argument") :=
  negative_argument_rejected FadviseType.Random "data.bin" (some (-1)) none
    (envOk 10000) (Or.inl ⟨-1, rfl, by decide⟩)

/-- Claim C1 (amended): when the length argument is omitted and the file is
a regular file whose size is below `2 ^ 63` (so the `u64` to `i64` cast does
not wrap), the effective length reported in the diagnostic output and passed
to the advisory call is exactly the file size. -/
theorem default_length_is_file_size (advice : FadviseType) (info : AdviseInfo)
    (env : Env) (md : Metadata) (hex : env.tryExists = Except.ok true)
    (hmd : env.metadata = Except.ok md) (hfile : md.is_file = true)
    (hlen : info.len = none) (hsize : md.len < 2 ^ 63) :
    Event.eprint ("len: " ++ toString ((md.len : Int))) ∈
      (handle_advice advice info env).1 ∧
    (env.openFile = Except.ok () →
      Event.fadvise info.offset (md.len : Int) (fadviseTypeInto advice) ∈
        (handle_advice advice info env).1) := by
  obtain ⟨te, mdr, op, fa⟩ := env
  simp only at hex hmd
  subst hex
  subst hmd
  have hcast : u64_as_i64 md.len = (md.len : Int) := by
    rw [u64_as_i64, if_pos hsize]
  cases op with
  | error m =>
    refine ⟨?_, ?_⟩
    · simp [handle_advice, hfile, hlen, hcast]
    · intro hop
      exact absurd hop (by simp)
  | ok u =>
    cases fa with
    | error e =>
      refine ⟨?_, fun _ => ?_⟩ <;> simp [handle_advice, hfile, hlen, hcast]
    | ok v =>
      refine ⟨?_, fun _ => ?_⟩ <;> simp [handle_advice, hfile, hlen, hcast]

/-- Counterexample for Claim C1 as stated: a regular file of size exactly
`2 ^ 63` bytes.  The advisory call receives the wrapped length `-(2 ^ 63)`,
not the file size `2 ^ 63`. -/
theorem default_length_counterexample :
    Event.fadvise 0 (-(2 ^ 63 : Int)) PosixFadviseAdvice.POSIX_FADV_NORMAL ∈
      (handle_advice FadviseType.Normal ⟨"huge.bin", 0, none⟩
        (envOk (2 ^ 63))).1 ∧
    Event.fadvise 0 ((2 ^ 63 : Int)) PosixFadviseAdvice.POSIX_FADV_NORMAL ∉
      (handle_advice FadviseType.Normal ⟨"huge.bin", 0, none⟩
        (envOk (2 ^ 63))).1 ∧
    (-(2 ^ 63 : Int)) ≠ (2 ^ 63 : Int) := by
  refine ⟨?_, ?_, by decide⟩ <;> decide

/-- Witness for C1 (amended) on a 10000-byte file with every OS call
succeeding. -/
theorem default_length_is_file_size_witness :
    Event.eprint "len: 10000" ∈
      (handle_advice FadviseType.DontNeed ⟨"data.bin", 0, none⟩
        (envOk 10000)).1 ∧
    Event.fadvise 0 (10000 : Int) (fadviseTypeInto FadviseType.DontNeed) ∈
      (handle_advice FadviseType.DontNeed ⟨"data.bin", 0, none⟩
        (envOk 10000)).1 := by
  have h := default_length_is_file_size FadviseType.DontNeed
    ⟨"data.bin", 0, none⟩ (envOk 10000) ⟨true, 10000⟩ rfl rfl rfl rfl
    (by norm_num)
  exact ⟨h.1, h.2 rfl⟩

/-- Claim C9: with the length argument omitted, the resolved length is the
wrapping `u64` to `i64` cast of the file size: it is reported in the
diagnostic, passed to the advisory call when the open succeeds, equals the
size when the size is below `2 ^ 63`, and is negative when the size is
`2 ^ 63` or more. -/
theorem default_length_wrapping_cast (advice : FadviseType)
    (info : AdviseInfo) (env : Env) (md : Metadata)
    (hex : env.tryExists = Except.ok true)
    (hmd : env.metadata = Except.ok md) (hfile : md.is_file = true)
    (hlen : info.len = none) (hu64 : md.len < 2 ^ 64) :
    Event.eprint ("len: " ++ toString (u64_as_i64 md.len)) ∈
      (handle_advice advice info env).1 ∧
    (env.openFile = Except.ok () →
      Event.fadvise info.offset (u64_as_i64 md.len) (fadviseTypeInto advice) ∈
        (handle_advice advice info env).1) ∧
    (md.len < 2 ^ 63 → u64_as_i64 md.len = (md.len : Int)) ∧
    (2 ^ 63 ≤ md.len → u64_as_i64 md.len < 0) := by
  obtain ⟨te, mdr, op, fa⟩ := env
  simp only at hex hmd
  subst hex
  subst hmd
  refine ⟨?_, ?_, ?_, ?_⟩
  · cases op with
    | error m => simp [handle_advice, hfile, hlen]
    | ok u =>
      cases fa with
      | error e => simp [handle_advice, hfile, hlen]
      | ok v => simp [handle_advice, hfile, hlen]
  · intro hop
    simp only at hop
    subst hop
    cases fa with
    | error e => simp [handle_advice, hfile, hlen]
    | ok v => simp [handle_advice, hfile, hlen]
  · intro hsmall
    rw [u64_as_i64, if_pos hsmall]
  · intro hbig
    rw [u64_as_i64, if_neg (by omega)]
    have : (md.len : Int) < 2 ^ 64 := by exact_mod_cast hu64
    omega

/-- Witness for C9 on a file of size exactly `2 ^ 63`: the advisory call is
issued with a negative length. -/
theorem default_length_wrapping_cast_witness :
    Event.fadvise 0 (u64_as_i64 (2 ^ 63))
        (fadviseTypeInto FadviseType.WillNeed) ∈
      (handle_advice FadviseType.WillNeed ⟨"huge.bin", 0, none⟩
        (envOk (2 ^ 63))).1 ∧
    u64_as_i64 (2 ^ 63) < 0 := by
  have h := default_length_wrapping_cast FadviseType.WillNeed
    ⟨"huge.bin", 0, none⟩ (envOk (2 ^ 63)) ⟨true, 2 ^ 63⟩ rfl rfl rfl rfl
    (by norm_num)
  exact ⟨h.2.1 rfl, h.2.2.2 (by norm_num)⟩

/-- Claim C7: whenever the existence and file-type validation passes, the
trace starts with the existence check, the metadata read, the four
diagnostic lines (filename, advice name, offset, length) in that order, and
then the file open; everything after that is at most the advisory call, so
the four lines are written before the advisory call, and the trace holds
exactly four diagnostic lines. -/
theorem four_diagnostic_lines_before_advisory (advice : FadviseType)
    (info : AdviseInfo) (env : Env) (md : Metadata)
    (hex : env.tryExists = Except.ok true)
    (hmd : env.metadata = Except.ok md) (hfile : md.is_file = true) :
    ∃ rest,
      (handle_advice advice info env).1 =
        [Event.checkExists, Event.readMetadata,
         Event.eprint ("filename: " ++ info.filename),
         Event.eprint ("advice: " ++ advice.display),
         Event.eprint ("offset: " ++ toString info.offset),
         Event.eprint ("len: " ++ toString (info.len.getD (u64_as_i64 md.len))),
         Event.openFile] ++ rest ∧
      (∀ e ∈ rest, e.isFadvise = true) ∧
      (handle_advice advice info env).1.countP Event.isEprint = 4 := by
  obtain ⟨te, mdr, op, fa⟩ := env
  simp only at hex hmd
  subst hex
  subst hmd
  cases op with
  | error m =>
    refine ⟨[], ?_, by simp, ?_⟩ <;>
      simp [handle_advice, hfile, Event.isEprint]
  | ok u =>
    cases fa with
    | error e =>
      refine ⟨[Event.fadvise info.offset
          (info.len.getD (u64_as_i64 md.len)) (fadviseTypeInto advice)],
        ?_, ?_, ?_⟩ <;>
        simp [handle_advice, hfile, Event.isEprint, Event.isFadvise]
    | ok v =>
      refine ⟨[Event.fadvise info.offset
          (info.len.getD (u64_as_i64 md.len)) (fadviseTypeInto advice)],
        ?_, ?_, ?_⟩ <;>
        simp [handle_advice, hfile, Event.isEprint, Event.isFadvise]

/-- Witness for C7 on a 10000-byte file with an explicit offset and length. -/
theorem four_diagnostic_lines_before_advisory_witness :
    ∃ rest,
      (handle_advice FadviseType.WillNeed ⟨"data.bin", 0, some 4096⟩
          (envOk 10000)).1 =
        [Event.checkExists, Event.readMetadata,
         Event.eprint "filename: data.bin",
         Event.eprint "advice: POSIX_FADV_WILLNEED",
         Event.eprint "offset: 0", Event.eprint "len: 4096",
         Event.openFile] ++ rest ∧
      (∀ e ∈ rest, e.isFadvise = true) ∧
      (handle_advice FadviseType.WillNeed ⟨"data.bin", 0, some 4096⟩
          (envOk 10000)).1.countP Event.isEprint = 4 := by
  have h := four_diagnostic_lines_before_advisory FadviseType.WillNeed
    ⟨"data.bin", 0, some 4096⟩ (envOk 10000) ⟨true, 10000⟩ rfl rfl rfl
  obtain ⟨rest, h1, h2, h3⟩ := h
  refine ⟨rest, ?_, h2, h3⟩
  rw [h1]
  exact congrArg (· ++ rest) (by decide)

/-- Claim C10: the four diagnostic lines are emitted before the file is
opened, so when validation passes they appear in full even when the open
fails (the result is then the open error) and even when the advisory call
itself fails (the result is then the advisory error). -/
theorem diagnostics_emitted_despite_failure (advice : FadviseType)
    (info : AdviseInfo) (env : Env) (md : Metadata)
    (hex : env.tryExists = Except.ok true)
    (hmd : env.metadata = Except.ok md) (hfile : md.is_file = true) :
    (∀ m, env.openFile = Except.error m →
      (handle_advice advice info env).1 =
        [Event.checkExists, Event.readMetadata,
         Event.eprint ("filename: " ++ info.filename),
         Event.eprint ("advice: " ++ advice.display),
         Event.eprint ("offset: " ++ toString info.offset),
         Event.eprint ("len: " ++ toString (info.len.getD (u64_as_i64 md.len))),
         Event.openFile] ∧
      (handle_advice advice info env).2 =
        Except.error "Failed to open the file") ∧
    (∀ e, env.openFile = Except.ok () → env.fadviseResult = Except.error e →
      (handle_advice advice info env).1 =
        [Event.checkExists, Event.readMetadata,
         Event.eprint ("filename: " ++ info.filename),
         Event.eprint ("advice: " ++ advice.display),
         Event.eprint ("offset: " ++ toString info.offset),
         Event.eprint ("len: " ++ toString (info.len.getD (u64_as_i64 md.len))),
         Event.openFile,
         Event.fadvise info.offset (info.len.getD (u64_as_i64 md.len))
           (fadviseTypeInto advice)] ∧
      (handle_advice advice info env).2 = Except.error e) := by
  obtain ⟨te, mdr, op, fa⟩ := env
  simp only at hex hmd
  subst hex
  subst hmd
  constructor
  · intro m hop
    simp only at hop
    subst hop
    constructor <;> simp [handle_advice, hfile]
  · intro e hop hfa
    simp only at hop hfa
    subst hop
    subst hfa
    constructor <;> simp [handle_advice, hfile]

/-- Witness for C10: open fails with a permission error on a 10000-byte
file, yet the diagnostic line reporting the resolved length is in the
trace. -/
theorem diagnostics_emitted_despite_failure_witness :
    (handle_advice FadviseType.WillNeed ⟨"locked.bin", 0, none⟩
        (envOpenFail 10000)).2 = Except.error "Failed to open the file" ∧
    Event.eprint "len: 10000" ∈
      (handle_advice FadviseType.WillNeed ⟨"locked.bin", 0, none⟩
        (envOpenFail 10000)).1 := by
  have h := (diagnostics_emitted_despite_failure FadviseType.WillNeed
    ⟨"locked.bin", 0, none⟩ (envOpenFail 10000) ⟨true, 10000⟩ rfl rfl rfl).1
    "Permission denied (os error 13)" rfl
  refine ⟨h.2, ?_⟩
  rw [h.1]
  decide

/-- Claim C6: every invocation is one linear sequence with no retries: the
trace either ends with a single advisory call whose OS result is the
invocation result, or contains no advisory call at all and the result is an
error from an earlier step; no step (existence check, metadata read, open,
advisory call) appears more than once in the trace; and no later step runs
after an earlier step has failed: a failed existence check or a missing
path truncates the trace at the existence check, a failed metadata read or
a non-regular file truncates it at the metadata read, and a failed open
ends it at the open attempt with no advisory call after it. -/
theorem linear_sequence_no_retry (advice : FadviseType) (info : AdviseInfo)
    (env : Env) :
    ((∃ o l a,
        (handle_advice advice info env).1.getLast? =
          some (Event.fadvise o l a) ∧
        (handle_advice advice info env).1.countP Event.isFadvise = 1 ∧
        (handle_advice advice info env).2 = env.fadviseResult) ∨
      ((∀ o l a, Event.fadvise o l a ∉ (handle_advice advice info env).1) ∧
        ∃ e, (handle_advice advice info env).2 = Except.error e)) ∧
    (handle_advice advice info env).1.countP Event.isCheckExists ≤ 1 ∧
    (handle_advice advice info env).1.countP Event.isReadMetadata ≤ 1 ∧
    (handle_advice advice info env).1.countP Event.isOpenFile ≤ 1 ∧
    (handle_advice advice info env).1.countP Event.isFadvise ≤ 1 ∧
    (∀ m, env.tryExists = Except.error m →
      (handle_advice advice info env).1 = [Event.checkExists]) ∧
    (env.tryExists = Except.ok false →
      (handle_advice advice info env).1 = [Event.checkExists]) ∧
    (∀ m, env.tryExists = Except.ok true → env.metadata = Except.error m →
      (handle_advice advice info env).1 =
        [Event.checkExists, Event.readMetadata]) ∧
    (∀ md, env.tryExists = Except.ok true → env.metadata = Except.ok md →
      md.is_file = false →
      (handle_advice advice info env).1 =
        [Event.checkExists, Event.readMetadata]) ∧
    (∀ md m, env.tryExists = Except.ok true → env.metadata = Except.ok md →
      md.is_file = true → env.openFile = Except.error m →
      (handle_advice advice info env).1.getLast? = some Event.openFile ∧
      ∀ o l a, Event.fadvise o l a ∉ (handle_advice advice info env).1) := by
  obtain ⟨te, mdr, op, fa⟩ := env
  cases te with
  | error m =>
    refine ⟨Or.inr ⟨?_, ?_⟩, ?_, ?_, ?_, ?_, ?_, ?_, ?_, ?_, ?_⟩ <;>
      simp [handle_advice, Event.isCheckExists, Event.isReadMetadata,
        Event.isOpenFile, Event.isFadvise]
  | ok b =>
    cases b with
    | false =>
      refine ⟨Or.inr ⟨?_, ?_⟩, ?_, ?_, ?_, ?_, ?_, ?_, ?_, ?_, ?_⟩ <;>
        simp [handle_advice, Event.isCheckExists, Event.isReadMetadata,
          Event.isOpenFile, Event.isFadvise]
    | true =>
      cases mdr with
      | error m =>
        refine ⟨Or.inr ⟨?_, ?_⟩, ?_, ?_, ?_, ?_, ?_, ?_, ?_, ?_, ?_⟩ <;>
          simp [handle_advice, Event.isCheckExists, Event.isReadMetadata,
            Event.isOpenFile, Event.isFadvise]
      | ok md =>
        cases hmf : md.is_file with
        | false =>
          refine ⟨Or.inr ⟨?_, ?_⟩, ?_, ?_, ?_, ?_, ?_, ?_, ?_, ?_, ?_⟩ <;>
            simp [handle_advice, hmf, Event.isCheckExists,
              Event.isReadMetadata, Event.isOpenFile, Event.isFadvise]
          intro md' m' h1 h2
          subst h1
          rw [hmf] at h2
          simp at h2
        | true =>
          cases op with
          | error m =>
            refine ⟨Or.inr ⟨?_, ?_⟩, ?_, ?_, ?_, ?_, ?_, ?_, ?_, ?_, ?_⟩ <;>
              simp [handle_advice, hmf, Event.isCheckExists,
                Event.isReadMetadata, Event.isOpenFile, Event.isFadvise]
          | ok u =>
            cases fa with
            | error e =>
              refine ⟨Or.inl ⟨info.offset,
                  info.len.getD (u64_as_i64 md.len), fadviseTypeInto advice,
                  ?_, ?_, ?_⟩, ?_, ?_, ?_, ?_, ?_, ?_, ?_, ?_, ?_⟩ <;>
                simp [handle_advice, hmf, Event.isCheckExists,
                  Event.isReadMetadata, Event.isOpenFile, Event.isFadvise]
            | ok v =>
              refine ⟨Or.inl ⟨info.offset,
                  info.len.getD (u64_as_i64 md.len), fadviseTypeInto advice,
                  ?_, ?_, ?_⟩, ?_, ?_, ?_, ?_, ?_, ?_, ?_, ?_, ?_⟩ <;>
                simp [handle_advice, hmf, Event.isCheckExists,
                  Event.isReadMetadata, Event.isOpenFile, Event.isFadvise]

/-- Witness for C6 at a concrete open failure: the trace truncates at the
open attempt and no advisory call is issued after the failed open. -/
theorem linear_sequence_no_retry_witness :
    (handle_advice FadviseType.Random ⟨"data.bin", 0, none⟩
        (envOpenFail 10000)).1.getLast? = some Event.openFile ∧
    ∀ o l a, Event.fadvise o l a ∉
      (handle_advice FadviseType.Random ⟨"data.bin", 0, none⟩
        (envOpenFail 10000)).1 := by
  have h := linear_sequence_no_retry FadviseType.Random
    ⟨"data.bin", 0, none⟩ (envOpenFail 10000)
  exact h.2.2.2.2.2.2.2.2.2 ⟨true, 10000⟩
    "Permission denied (os error 13)" rfl rfl rfl rfl

/-- Claim C8: the invocation is a deterministic function of the arguments
and the filesystem state: two runs with identical advice, identical parsed
arguments, and an unchanged filesystem state produce the same trace and the
same success or failure outcome. -/
theorem repeated_invocation_same_outcome (advice : FadviseType)
    (info1 info2 : AdviseInfo) (env1 env2 : Env) (hinfo : info1 = info2)
    (henv : env1 = env2) :
    handle_advice advice info1 env1 = handle_advice advice info2 env2 := by
  rw [hinfo, henv]

/-- Witness for C8: two identical dontneed invocations on the same
10000-byte file agree. -/
theorem repeated_invocation_same_outcome_witness :
    handle_advice FadviseType.DontNeed ⟨"data.bin", 0, none⟩ (envOk 10000) =
      handle_advice FadviseType.DontNeed ⟨"data.bin", 0, none⟩
        (envOk 10000) :=
  repeated_invocation_same_outcome FadviseType.DontNeed
    ⟨"data.bin", 0, none⟩ ⟨"data.bin", 0, none⟩ (envOk 10000) (envOk 10000)
    rfl rfl

end Fadvise
